import Mathlib

/-! Verification of the scraping orchestration engine of ibvi-cli-rust.

Shallow embedding of src/src/scraper/mod.rs (FailureTracker, DelayPattern,
ScraperEngine::new, ScraperEngine::process_batch_with_callback) and of
src/src/diretrix_scraper/mod.rs (DiretrixScraper::ensure_on_search_page).

Machine integers (u64) are modelled as Nat with explicit wrap-around where
the source can overflow; randomness and the browser environment are modelled
as oracle functions, universally quantified in the theorems; async task
scheduling is modelled by an explicit timing model (the source awaits all
tasks of a chunk with futures::future::join_all, whose documented semantics
collect outputs in the order of the input futures). -/

namespace Ibvi

/-! Section 1: FailureTracker (src/src/scraper/mod.rs lines 83-171). -/

/-- Modulus of the u64 arithmetic used for timestamps in the source. -/
def u64Mod : Nat := 2 ^ 64

/-- Wrapping u64 subtraction, as computed by the expression now - ts in
release mode (the source subtracts u64 timestamps). -/
def sub64 (a b : Nat) : Nat := (a % u64Mod + (u64Mod - b % u64Mod)) % u64Mod

/-- State of FailureTracker (lines 84-89): lifetime failure counter, rolling
window of unix timestamps (seconds), timestamp of the last cooldown, and the
cooldown-active flag. -/
structure FailureTracker where
  failure_count : Nat
  failure_timestamps : List Nat
  last_cooldown : Option Nat
  cooldown_active : Bool
deriving DecidableEq, Repr

/-- FailureTracker::new (lines 92-99). -/
def FailureTracker.new : FailureTracker :=
  { failure_count := 0, failure_timestamps := [], last_cooldown := none,
    cooldown_active := false }

/-- The retain predicate of should_cooldown (line 113): keep a timestamp ts
iff now - ts < 600 in u64 arithmetic. -/
def keepTs (now ts : Nat) : Bool := decide (sub64 now ts < 600)

/-- The pruning step of should_cooldown (line 113): retain only window
entries with now - ts < 600. -/
def prune (now : Nat) (st : FailureTracker) : FailureTracker :=
  { st with failure_timestamps := st.failure_timestamps.filter (keepTs now) }

/-- FailureTracker::should_cooldown (lines 109-117): prune the window, then
report whether it still holds at least 2 entries.  The source mutates self;
the model returns the decision together with the updated state. -/
def should_cooldown (now : Nat) (st : FailureTracker) : Bool × FailureTracker :=
  let st1 := prune now st
  (decide (2 ≤ st1.failure_timestamps.length), st1)

/-- FailureTracker::record_failure (lines 120-130): push the current
timestamp and bump the lifetime counter. -/
def record_failure (now : Nat) (st : FailureTracker) : FailureTracker :=
  { st with failure_timestamps := st.failure_timestamps ++ [now],
            failure_count := st.failure_count + 1 }

/-- FailureTracker::record_success (lines 133-141): hard reset of all
counters and flags. -/
def record_success (st : FailureTracker) : FailureTracker :=
  { st with failure_count := 0, failure_timestamps := [],
            cooldown_active := false, last_cooldown := none }

/-- Total sleep of the cooldown progress loop (lines 156-162): ten sleeps of
120 seconds each. -/
def cooldownSleepTotal : Nat := 10 * 120

/-- FailureTracker::apply_cooldown_if_needed (lines 144-170).  Returns the
final tracker state and the number of seconds slept. -/
def apply_cooldown_if_needed (now : Nat) (st : FailureTracker) :
    FailureTracker × Nat :=
  let r := should_cooldown now st
  if r.1 then
    ({ r.2 with cooldown_active := false, last_cooldown := some now,
                failure_timestamps := [] }, cooldownSleepTotal)
  else
    (r.2, 0)

/-! Section 2: per-job results (src/src/scraper/mod.rs lines 49-75 and the
ScraperResult construction at lines 377-398). -/

/-- IPTUData (lines 65-75): the record extracted from a results page. -/
structure IPTUData where
  numero_cadastro : Option String
  nome_proprietario : Option String
  nome_compromissario : Option String
  endereco : Option String
  numero : Option String
  complemento : Option String
  bairro : Option String
  cep : Option String
deriving DecidableEq, Repr

/-- ScraperResult (lines 49-62): the outcome emitted for one job. -/
structure ScraperResult where
  contributor_number : String
  numero_cadastro : Option String
  nome_proprietario : Option String
  nome_compromissario : Option String
  endereco : Option String
  numero : Option String
  complemento : Option String
  bairro : Option String
  cep : Option String
  success : Bool
  error : Option String
deriving DecidableEq, Repr

/-- result.as_ref().ok() of the source: the ok payload of a Result. -/
def exceptToOption {ε α : Type} : Except ε α → Option α
  | Except.ok a => some a
  | Except.error _ => none

/-- result.err() of the source: the error payload of a Result. -/
def exceptError {ε α : Type} : Except ε α → Option ε
  | Except.ok _ => none
  | Except.error e => some e

/-- result.is_ok() of the source. -/
def isOkB {ε α : Type} : Except ε α → Bool
  | Except.ok _ => true
  | Except.error _ => false

/-- Construction of the ScraperResult inside the per-job task (lines
377-398): every data field is result.as_ref().ok().and_then(clone of the
field), success is result.is_ok(), error is result.err() rendered to a
string (errors are modelled as their message strings). -/
def mkScraperResult (number : String) (result : Except String IPTUData) :
    ScraperResult :=
  { contributor_number := number
    numero_cadastro := (exceptToOption result).bind (fun r => r.numero_cadastro)
    nome_proprietario := (exceptToOption result).bind (fun r => r.nome_proprietario)
    nome_compromissario := (exceptToOption result).bind (fun r => r.nome_compromissario)
    endereco := (exceptToOption result).bind (fun r => r.endereco)
    numero := (exceptToOption result).bind (fun r => r.numero)
    complemento := (exceptToOption result).bind (fun r => r.complemento)
    bairro := (exceptToOption result).bind (fun r => r.bairro)
    cep := (exceptToOption result).bind (fun r => r.cep)
    success := isOkB result
    error := exceptError result }

/-! Section 3: chunked batch processing
(ScraperEngine::process_batch_with_callback, lines 303-441). -/

/-- Structural worker for the chunk decomposition: the fuel argument only
forces termination and is always at least the list length, so the middle
equation is never reached from chunksOf. -/
def chunksOfAux {α : Type} (k : Nat) : Nat → List α → List (List α)
  | _, [] => []
  | 0, _ :: _ => []
  | fuel + 1, x :: xs => ((x :: xs).take k) :: chunksOfAux k fuel (xs.drop (k - 1))

/-- The chunk decomposition produced by jobs.chunks(k) of the source: for
k at least 1, consecutive sub-lists of length k, the last possibly
shorter.  (Rust slice::chunks panics for k = 0; theorems assume 1 <= k.) -/
def chunksOf {α : Type} (k : Nat) (l : List α) : List (List α) :=
  chunksOfAux k l.length l

/-- One chunk of the loop at lines 330-438: the task for the job at chunk
position i drives driver_pool[i]; the oracle scrape models
Self::scrape_iptu_static(&driver_pool[i], &number) as a function of the
slot index and the job identifier.  futures::future::join_all collects the
task outputs in the order the futures were submitted, so the chunk result
list is in chunk order. -/
def processChunk (scrape : Nat → String → Except String IPTUData)
    (chunk : List String) : List ScraperResult :=
  chunk.enum.map (fun p => mkScraperResult p.2 (scrape p.1 p.2))

/-- The chunk loop of process_batch_with_callback: first component collects
the results pushed into the results vector, second component records the
callback invocations (result, completed counter, total) in the order they
are made (lines 406-429). -/
def runChunks (scrape : Nat → String → Except String IPTUData) (total : Nat) :
    Nat → List (List String) → List ScraperResult × List (ScraperResult × Nat × Nat)
  | _, [] => ([], [])
  | completed, c :: cs =>
      let rs := processChunk scrape c
      let evs := rs.enum.map (fun p => (p.2, completed + p.1 + 1, total))
      let rest := runChunks scrape total (completed + rs.length) cs
      (rs ++ rest.1, evs ++ rest.2)

/-- ScraperEngine::process_batch_with_callback (lines 303-441): chunk the
job list by config.max_concurrent = k, run the chunks in order, return the
results and the callback trace. -/
def process_batch_with_callback (k : Nat)
    (scrape : Nat → String → Except String IPTUData) (jobs : List String) :
    List ScraperResult × List (ScraperResult × Nat × Nat) :=
  runChunks scrape jobs.length 0 (chunksOf k jobs)

/-! Section 4: timing model of the chunk scheduling.  Each task of a chunk
first sleeps its stagger delay (lines 346-369), then runs for some duration;
join_all returns once every task of the chunk has finished (line 407); the
inter-chunk pause (lines 431-437) and the callback loop run before the next
chunk starts.  Oracles give the stagger delay and duration of the task at
slot i of chunk c, and the pause after chunk c. -/

/-- Nondeterministic timing data of one batch run: stagger delay of slot i
of chunk c, task duration of slot i of chunk c, inter-chunk pause after
chunk c. -/
structure Timing where
  stagger : Nat → Nat → Nat
  dur : Nat → Nat → Nat
  interDelay : Nat → Nat

/-- Number of tasks of chunk c. -/
def chunkSizes (k : Nat) (jobs : List String) (c : Nat) : Nat :=
  ((chunksOf k jobs).getD c []).length

/-- Relative time at which the last task of chunk c finishes: join_all
returns no earlier than this. -/
def chunkSpan (T : Timing) (size c : Nat) : Nat :=
  ((List.range size).map (fun i => T.stagger c i + T.dur c i)).foldr max 0

/-- Absolute time at which chunk c begins: all previous chunks have fully
completed and their inter-chunk pauses have elapsed. -/
def chunkBase (T : Timing) (k : Nat) (jobs : List String) : Nat → Nat
  | 0 => 0
  | c + 1 => chunkBase T k jobs c + chunkSpan T (chunkSizes k jobs c) c +
      T.interDelay c

/-- Absolute time at which the task at slot i of chunk c starts (after its
stagger delay). -/
def taskStartAbs (T : Timing) (k : Nat) (jobs : List String) (c i : Nat) : Nat :=
  chunkBase T k jobs c + T.stagger c i

/-- Absolute time at which the task at slot i of chunk c completes. -/
def taskEndAbs (T : Timing) (k : Nat) (jobs : List String) (c i : Nat) : Nat :=
  chunkBase T k jobs c + T.stagger c i + T.dur c i

/-- Completion times of the tasks of chunk c listed in the order their
results are delivered to the callback (join_all output order = slot
order). -/
def chunkCallbackEndTimes (T : Timing) (k : Nat) (jobs : List String)
    (c : Nat) : List Nat :=
  (List.range (chunkSizes k jobs c)).map (fun i => taskEndAbs T k jobs c i)

/-- Concrete timing used to refute the completion-order reading of the
callback contract: slot 0 finishes at 100, slot 1 at 50. -/
def cexTiming : Timing :=
  { stagger := fun _ i => if i = 0 then 0 else 10
    dur := fun _ i => if i = 0 then 100 else 40
    interDelay := fun _ => 0 }

/-- Concrete scrape oracle for counterexamples: every job fails. -/
def cexScrape : Nat → String → Except String IPTUData :=
  fun _ _ => Except.error "navigation failed"

/-! Section 5: session pool identity rotation (ScraperEngine::new, lines
235-301). -/

/-- The fixed User-Agent list (lines 239-245). -/
def user_agents : List String :=
  ["Mozilla/5.0 (Windows NT 10.0; Win64; x64) AppleWebKit/537.36 (KHTML, like Gecko) Chrome/120.0.0.0 Safari/537.36",
   "Mozilla/5.0 (Macintosh; Intel Mac OS X 10_15_7) AppleWebKit/537.36 (KHTML, like Gecko) Chrome/120.0.0.0 Safari/537.36",
   "Mozilla/5.0 (X11; Linux x86_64) AppleWebKit/537.36 (KHTML, like Gecko) Chrome/120.0.0.0 Safari/537.36",
   "Mozilla/5.0 (Windows NT 10.0; Win64; x64) AppleWebKit/537.36 (KHTML, like Gecko) Chrome/119.0.0.0 Safari/537.36",
   "Mozilla/5.0 (Macintosh; Intel Mac OS X 10_15_7) AppleWebKit/605.1.15 (KHTML, like Gecko) Version/17.1 Safari/605.1.15"]

/-- Identity strings assigned to the pool sessions: driver i receives
user_agents[i % user_agents.len()] (line 259). -/
def poolIdentities (poolSize : Nat) : List String :=
  (List.range poolSize).map (fun i => user_agents.getD (i % user_agents.length) "")

/-! Section 6: delay policy (DelayPattern, lines 11-46). -/

/-- DelayPattern (lines 12-16). -/
inductive DelayPattern where
  | Quick
  | Normal
  | Slow
deriving DecidableEq, Repr

/-- Base millisecond range sampled by gen_range in DelayPattern::wait
(lines 21-25): half-open, lo inclusive, hi exclusive. -/
def baseRange : DelayPattern → Nat × Nat
  | DelayPattern.Quick => (3000, 4000)
  | DelayPattern.Normal => (4000, 8000)
  | DelayPattern.Slow => (8000, 18000)

/-- The jitter computation of lines 28-29: a jitter percent j drawn from
-20..=20 scales the base delay by (100 + j)/100, truncated.  The source
computes this in f64 and truncates to u64; it is modelled by exact integer
arithmetic (floor division), which agrees with the f64 computation on the
interval bounds proved below. -/
def finalDelay (delay : Nat) (jitter : Int) : Int :=
  ((delay : Int) * (100 + jitter)) / 100

/-! Section 7: page reachability (DiretrixScraper::ensure_on_search_page,
src/src/diretrix_scraper/mod.rs lines 186-364). -/

/-- Error signalled when the 4-attempt bound is exhausted (the bail at line
363, named TargetPageUnreachable in the design taxonomy). -/
inductive NavError where
  | targetPageUnreachable
deriving DecidableEq, Repr

/-- One run of the for attempt in 1..=4 loop of ensure_on_search_page.  The
environment is an oracle indexed by attempt number: pre a holds when the
pre-navigation check of attempt a finds the target page (url contains
/IPTU/PorEndereco and the search field is present), is404 a when the page
source after navigating matches a 404 signature (the loop then continues to
the next attempt), post a when the post-navigation check finds the search
field.  Returns the outcome together with the number of attempts made. -/
def ensureAux (pre is404 post : Nat → Bool) :
    Nat → Nat → Except NavError Unit × Nat
  | 0, used => (Except.error NavError.targetPageUnreachable, used)
  | fuel + 1, used =>
      let a := used + 1
      if pre a then (Except.ok (), a)
      else if is404 a then ensureAux pre is404 post fuel a
      else if post a then (Except.ok (), a)
      else ensureAux pre is404 post fuel a

/-- DiretrixScraper::ensure_on_search_page: at most 4 attempts. -/
def ensure_on_search_page (pre is404 post : Nat → Bool) :
    Except NavError Unit × Nat :=
  ensureAux pre is404 post 4 0

/-! Theorems. -/

theorem chunksOfAux_congr {α : Type} (k : Nat) :
    ∀ (f1 f2 : Nat) (l : List α), l.length ≤ f1 → l.length ≤ f2 →
      chunksOfAux k f1 l = chunksOfAux k f2 l := by
  intro f1
  induction f1 with
  | zero =>
      intro f2 l h1 _
      have hl : l = [] := List.eq_nil_of_length_eq_zero (Nat.le_zero.mp h1)
      subst hl
      cases f2 <;> rfl
  | succ f ih =>
      intro f2 l h1 h2
      cases l with
      | nil => cases f2 <;> rfl
      | cons x xs =>
          cases f2 with
          | zero => simp at h2
          | succ f2 =>
              simp only [chunksOfAux]
              rw [ih f2 (xs.drop (k - 1))]
              · simp only [List.length_drop]
                simp only [List.length_cons] at h1
                omega
              · simp only [List.length_drop]
                simp only [List.length_cons] at h2
                omega

theorem chunksOf_nil {α : Type} (k : Nat) : chunksOf k ([] : List α) = [] := rfl

theorem chunksOf_cons {α : Type} (k : Nat) (x : α) (xs : List α) :
    chunksOf k (x :: xs) = ((x :: xs).take k) :: chunksOf k (xs.drop (k - 1)) := by
  show chunksOfAux k (xs.length + 1) (x :: xs) = _
  simp only [chunksOfAux]
  rw [chunksOfAux_congr k xs.length (xs.drop (k - 1)).length (xs.drop (k - 1))]
  · rfl
  · simp [List.length_drop]
  · exact le_rfl

theorem chunksOf_cons_ge {α : Type} {k : Nat} (hk : 1 ≤ k) (x : α) (xs : List α) :
    chunksOf k (x :: xs) = ((x :: xs).take k) :: chunksOf k ((x :: xs).drop k) := by
  obtain ⟨k1, rfl⟩ : ∃ k1, k = k1 + 1 := ⟨k - 1, by omega⟩
  rw [chunksOf_cons]
  simp [List.drop_succ_cons]

theorem chunksOf_flatten {α : Type} {k : Nat} (hk : 1 ≤ k) (l : List α) :
    (chunksOf k l).flatten = l := by
  suffices H : ∀ (n : Nat) (l : List α), l.length ≤ n → (chunksOf k l).flatten = l from
    H l.length l le_rfl
  intro n
  induction n with
  | zero =>
      intro l hl
      have : l = [] := List.eq_nil_of_length_eq_zero (Nat.le_zero.mp hl)
      subst this
      rfl
  | succ n ih =>
      intro l hl
      cases l with
      | nil => rfl
      | cons x xs =>
          obtain ⟨k1, rfl⟩ : ∃ k1, k = k1 + 1 := ⟨k - 1, by omega⟩
          rw [chunksOf_cons]
          simp only [Nat.add_sub_cancel, List.flatten_cons]
          rw [ih (xs.drop k1) (by simp only [List.length_drop]; simp only [List.length_cons] at hl; omega)]
          rw [List.take_succ_cons, List.cons_append, List.take_append_drop]

theorem chunksOf_length {α : Type} {k : Nat} (hk : 1 ≤ k) (l : List α) :
    (chunksOf k l).length = (l.length + k - 1) / k := by
  have hlen0 : (k - 1) / k = 0 := Nat.div_eq_of_lt (by omega)
  suffices H : ∀ (n : Nat) (l : List α), l.length ≤ n →
      (chunksOf k l).length = (l.length + k - 1) / k from H l.length l le_rfl
  intro n
  induction n with
  | zero =>
      intro l hl
      have : l = [] := List.eq_nil_of_length_eq_zero (Nat.le_zero.mp hl)
      subst this
      simpa [chunksOf_nil] using hlen0.symm
  | succ n ih =>
      intro l hl
      cases l with
      | nil => simpa [chunksOf_nil] using hlen0.symm
      | cons x xs =>
          rw [chunksOf_cons, List.length_cons]
          rw [ih (xs.drop (k - 1)) (by simp only [List.length_drop]; simp only [List.length_cons] at hl; omega)]
          simp only [List.length_drop, List.length_cons]
          have hrw1 : xs.length + 1 + k - 1 = xs.length + k := by omega
          rw [hrw1, Nat.add_div_right _ (by omega : 0 < k)]
          by_cases hcase : xs.length ≤ k - 1
          · have h1 : xs.length - (k - 1) = 0 := by omega
            have h3 : xs.length / k = 0 := Nat.div_eq_of_lt (by omega)
            rw [h1]
            simp only [Nat.zero_add, hlen0, h3]
          · have h1 : xs.length - (k - 1) + k - 1 = xs.length := by omega
            rw [h1]

theorem chunksOf_getElem {α : Type} {k : Nat} (hk : 1 ≤ k) (l : List α) :
    ∀ i, i < (chunksOf k l).length →
      (chunksOf k l)[i]? = some ((l.drop (i * k)).take k) := by
  suffices H : ∀ (n : Nat) (l : List α), l.length ≤ n → ∀ i,
      i < (chunksOf k l).length →
      (chunksOf k l)[i]? = some ((l.drop (i * k)).take k) from H l.length l le_rfl
  intro n
  induction n with
  | zero =>
      intro l hl i hi
      have : l = [] := List.eq_nil_of_length_eq_zero (Nat.le_zero.mp hl)
      subst this
      simp [chunksOf_nil] at hi
  | succ n ih =>
      intro l hl i hi
      cases l with
      | nil => simp [chunksOf_nil] at hi
      | cons x xs =>
          rw [chunksOf_cons_ge hk] at hi ⊢
          cases i with
          | zero => simp
          | succ i =>
              simp only [List.getElem?_cons_succ]
              have hlen : i < (chunksOf k ((x :: xs).drop k)).length := by
                simp only [List.length_cons] at hi
                omega
              rw [ih ((x :: xs).drop k)
                    (by simp only [List.length_drop, List.length_cons]
                        simp only [List.length_cons] at hl
                        omega)
                    i hlen]
              rw [List.drop_drop]
              have harith : k + i * k = (i + 1) * k := by ring
              rw [harith]

/-! Theorems about the FailureTracker. -/

theorem sub64_of_le {a b : Nat} (hba : b ≤ a) (ha : a < u64Mod) : sub64 a b = a - b := by
  unfold sub64
  have hb : b < u64Mod := lt_of_le_of_lt hba ha
  rw [Nat.mod_eq_of_lt ha, Nat.mod_eq_of_lt hb]
  have h1 : a + (u64Mod - b) = (a - b) + u64Mod := by omega
  rw [h1, Nat.add_mod_right, Nat.mod_eq_of_lt (by omega)]

/-- Claim C2: should_cooldown returns true iff, after pruning every window
entry at least 600 seconds old relative to the current time, the failure
window still holds at least 2 entries; and immediately after any
record_success call, should_cooldown returns false regardless of how many
failures were recorded before. -/
theorem should_cooldown_iff_and_reset (st : FailureTracker) (now : Nat)
    (hts : ∀ ts ∈ st.failure_timestamps, ts ≤ now) (hnow : now < u64Mod) :
    ((should_cooldown now st).1 = true ↔
      2 ≤ (st.failure_timestamps.filter (fun ts => decide (now - ts < 600))).length) ∧
    (∀ (st2 : FailureTracker) (now2 : Nat),
      (should_cooldown now2 (record_success st2)).1 = false) := by
  constructor
  · unfold should_cooldown prune
    simp only [decide_eq_true_eq]
    have hfilter : st.failure_timestamps.filter (keepTs now) =
        st.failure_timestamps.filter (fun ts => decide (now - ts < 600)) := by
      apply List.filter_congr
      intro ts hmem
      unfold keepTs
      rw [sub64_of_le (hts ts hmem) hnow]
    rw [hfilter]
  · intro st2 now2
    rfl

theorem should_cooldown_iff_and_reset_witness :
    (∀ ts ∈ (FailureTracker.mk 2 [100, 650] none false).failure_timestamps, ts ≤ 700) ∧
    700 < u64Mod ∧
    (((should_cooldown 700 (FailureTracker.mk 2 [100, 650] none false)).1 = true ↔
      2 ≤ (((FailureTracker.mk 2 [100, 650] none false).failure_timestamps).filter
            (fun ts => decide (700 - ts < 600))).length) ∧
     (∀ (st2 : FailureTracker) (now2 : Nat),
       (should_cooldown now2 (record_success st2)).1 = false)) :=
  ⟨by decide, by decide,
   should_cooldown_iff_and_reset (FailureTracker.mk 2 [100, 650] none false) 700
     (by decide) (by decide)⟩

/-- Claim C3 (amended): if should_cooldown holds, apply_cooldown_if_needed
sleeps a fixed 1200 seconds and afterwards the failure window is empty and
the cooldown flag inactive, unconditionally; if should_cooldown is false,
no wait occurs and the tracker is unchanged except that entries at least
600 seconds old are pruned from the window (should_cooldown itself prunes
on evaluation). -/
theorem apply_cooldown_spec (now : Nat) (st : FailureTracker) :
    apply_cooldown_if_needed now st =
      if (should_cooldown now st).1 then
        ({ st with failure_timestamps := [], cooldown_active := false,
                   last_cooldown := some now }, 1200)
      else
        ({ st with failure_timestamps := st.failure_timestamps.filter (keepTs now) }, 0) := by
  unfold apply_cooldown_if_needed should_cooldown prune cooldownSleepTotal
  by_cases h : 2 ≤ (st.failure_timestamps.filter (keepTs now)).length <;>
    simp [h]

/-- Claim C3 counterexample: with one stale failure in the window,
should_cooldown is false and no wait occurs, yet the tracker state is
changed (the stale entry is pruned), so the state is not left unchanged. -/
theorem apply_cooldown_counterexample :
    (should_cooldown 1000 (FailureTracker.mk 1 [0] none false)).1 = false ∧
    (apply_cooldown_if_needed 1000 (FailureTracker.mk 1 [0] none false)).2 = 0 ∧
    (apply_cooldown_if_needed 1000 (FailureTracker.mk 1 [0] none false)).1 ≠
      FailureTracker.mk 1 [0] none false := by
  decide

/-! Theorems about the page reachability routine. -/

theorem ensureAux_attempts_le (pre is404 post : Nat → Bool) :
    ∀ (fuel used : Nat), (ensureAux pre is404 post fuel used).2 ≤ used + fuel := by
  intro fuel
  induction fuel with
  | zero => intro used; simp [ensureAux]
  | succ fuel ih =>
      intro used
      simp only [ensureAux]
      cases h1 : pre (used + 1)
      case true =>
        rw [if_pos rfl]
        show used + 1 ≤ used + (fuel + 1)
        omega
      case false =>
        rw [if_neg (by simp)]
        cases h2 : is404 (used + 1)
        case true =>
          rw [if_pos rfl]
          have := ih (used + 1)
          omega
        case false =>
          rw [if_neg (by simp)]
          cases h3 : post (used + 1)
          case true =>
            rw [if_pos rfl]
            show used + 1 ≤ used + (fuel + 1)
            omega
          case false =>
            rw [if_neg (by simp)]
            have := ih (used + 1)
            omega

theorem ensureAux_never_found (pre is404 post : Nat → Bool)
    (hpre : ∀ a, pre a = false) (hpost : ∀ a, post a = false) :
    ∀ (fuel used : Nat), ensureAux pre is404 post fuel used =
      (Except.error NavError.targetPageUnreachable, used + fuel) := by
  intro fuel
  induction fuel with
  | zero => intro used; simp [ensureAux]
  | succ fuel ih =>
      intro used
      simp only [ensureAux, hpre, hpost]
      rw [if_neg (by simp)]
      have harith : used + 1 + fuel = used + (fuel + 1) := by omega
      cases h2 : is404 (used + 1)
      case true =>
        rw [if_pos rfl, ih (used + 1), harith]
      case false =>
        rw [if_neg (by simp), if_neg (by simp), ih (used + 1), harith]

/-- Claim C4: ensure_on_search_page makes at most 4 attempts; for every
target-page detector that never succeeds it terminates after exactly 4
attempts returning the TargetPageUnreachable error, and never makes a
fifth attempt. -/
theorem ensure_on_search_page_bounded (pre is404 post : Nat → Bool) :
    (ensure_on_search_page pre is404 post).2 ≤ 4 ∧
    ((∀ a, pre a = false) → (∀ a, post a = false) →
      ensure_on_search_page pre is404 post =
        (Except.error NavError.targetPageUnreachable, 4)) := by
  constructor
  · have := ensureAux_attempts_le pre is404 post 4 0
    simpa [ensure_on_search_page] using this
  · intro hpre hpost
    have := ensureAux_never_found pre is404 post hpre hpost 4 0
    simpa [ensure_on_search_page] using this

/-! Machinery for the batch characterization. -/

theorem le_foldr_max (l : List Nat) (x : Nat) (hx : x ∈ l) : x ≤ l.foldr max 0 := by
  induction l with
  | nil => cases hx
  | cons y ys ih =>
      rcases List.mem_cons.mp hx with h | h
      · subst h
        simp only [List.foldr_cons]
        exact le_max_left _ _
      · simp only [List.foldr_cons]
        exact le_trans (ih h) (le_max_right _ _)

theorem enumFrom_map_off {α β : Type} :
    ∀ (l : List α) (F : Nat × α → β) (n : Nat),
      (List.enumFrom n l).map F = l.enum.map (fun p => F (p.1 + n, p.2)) := by
  intro l
  induction l with
  | nil => intro F n; rfl
  | cons x xs ih =>
      intro F n
      rw [List.enumFrom_cons, List.enum_cons, List.map_cons, List.map_cons]
      rw [ih F (n + 1), ih (fun p => F (p.1 + n, p.2)) 1]
      congr 1
      · show F (n, x) = F (0 + n, x)
        rw [Nat.zero_add]
      · apply List.map_congr_left
        intro p _
        show F (p.1 + (n + 1), p.2) = F (p.1 + 1 + n, p.2)
        have h : p.1 + (n + 1) = p.1 + 1 + n := by omega
        rw [h]

theorem enum_enum {α : Type} (l : List α) :
    l.enum.enum = l.enum.map (fun p => (p.1, p)) := by
  apply List.ext_getElem?
  intro n
  simp only [List.getElem?_enum, List.getElem?_map, Option.map_map]
  cases l[n]? <;> rfl

theorem enum_map_enum {α β γ : Type} (l : List α) (F : Nat × α → β) (G : Nat × β → γ) :
    ((l.enum.map F).enum).map G = l.enum.map (fun p => G (p.1, F p)) := by
  rw [List.enum_map, enum_enum, List.map_map, List.map_map]
  apply List.map_congr_left
  intro p _
  rfl

theorem processChunk_length (s : Nat → String → Except String IPTUData)
    (c : List String) : (processChunk s c).length = c.length := by
  simp [processChunk, List.enum_length]

theorem runChunks_fst {k : Nat} (hk : 1 ≤ k) (s : Nat → String → Except String IPTUData)
    (total : Nat) (jobs : List String) (completed : Nat) :
    (runChunks s total completed (chunksOf k jobs)).1 =
      jobs.enum.map (fun p => mkScraperResult p.2 (s (p.1 % k) p.2)) := by
  suffices H : ∀ (n : Nat) (jobs : List String), jobs.length ≤ n → ∀ completed,
      (runChunks s total completed (chunksOf k jobs)).1 =
        jobs.enum.map (fun p => mkScraperResult p.2 (s (p.1 % k) p.2)) from
    H jobs.length jobs le_rfl completed
  clear completed jobs
  intro n
  induction n with
  | zero =>
      intro jobs hjl completed
      have : jobs = [] := List.eq_nil_of_length_eq_zero (Nat.le_zero.mp hjl)
      subst this
      rfl
  | succ n ih =>
      intro jobs hjl completed
      cases jobs with
      | nil => rfl
      | cons x xs =>
          rw [chunksOf_cons_ge hk]
          show processChunk s ((x :: xs).take k) ++
              (runChunks s total
                (completed + (processChunk s ((x :: xs).take k)).length)
                (chunksOf k ((x :: xs).drop k))).1 = _
          rw [ih ((x :: xs).drop k)
                (by simp only [List.length_drop, List.length_cons]
                    simp only [List.length_cons] at hjl
                    omega)]
          set c := (x :: xs).take k with hc
          set r := (x :: xs).drop k with hr
          have hsplit : x :: xs = c ++ r := by
            rw [hc, hr, List.take_append_drop]
          rw [hsplit, List.enum_append, List.map_append, enumFrom_map_off]
          congr 1
          · unfold processChunk
            apply List.map_congr_left
            intro p hp
            have hp1 : p.1 < c.length := by
              rw [List.mem_enum_iff_getElem?] at hp
              exact (List.getElem?_eq_some.mp hp).1
            have hck : c.length ≤ k := by
              rw [hc, List.length_take]
              exact min_le_left _ _
            rw [Nat.mod_eq_of_lt (lt_of_lt_of_le hp1 hck)]
          · by_cases hsmall : (x :: xs).length ≤ k
            · have hre : r = [] := by
                rw [hr]
                exact List.drop_eq_nil_of_le hsmall
              rw [hre]
              rfl
            · have hck : c.length = k := by
                rw [hc, List.length_take]
                simp only [List.length_cons] at hsmall ⊢
                omega
              apply List.map_congr_left
              intro p _
              rw [hck]
              show mkScraperResult p.2 (s (p.1 % k) p.2) =
                mkScraperResult p.2 (s ((p.1 + k) % k) p.2)
              rw [Nat.add_mod_right]

theorem runChunks_snd {k : Nat} (hk : 1 ≤ k) (s : Nat → String → Except String IPTUData)
    (total : Nat) (jobs : List String) (completed : Nat) :
    (runChunks s total completed (chunksOf k jobs)).2 =
      jobs.enum.map (fun p =>
        (mkScraperResult p.2 (s (p.1 % k) p.2), completed + p.1 + 1, total)) := by
  suffices H : ∀ (n : Nat) (jobs : List String), jobs.length ≤ n → ∀ completed,
      (runChunks s total completed (chunksOf k jobs)).2 =
        jobs.enum.map (fun p =>
          (mkScraperResult p.2 (s (p.1 % k) p.2), completed + p.1 + 1, total)) from
    H jobs.length jobs le_rfl completed
  clear completed jobs
  intro n
  induction n with
  | zero =>
      intro jobs hjl completed
      have : jobs = [] := List.eq_nil_of_length_eq_zero (Nat.le_zero.mp hjl)
      subst this
      rfl
  | succ n ih =>
      intro jobs hjl completed
      cases jobs with
      | nil => rfl
      | cons x xs =>
          rw [chunksOf_cons_ge hk]
          show (processChunk s ((x :: xs).take k)).enum.map
                (fun p => (p.2, completed + p.1 + 1, total)) ++
              (runChunks s total
                (completed + (processChunk s ((x :: xs).take k)).length)
                (chunksOf k ((x :: xs).drop k))).2 = _
          rw [ih ((x :: xs).drop k)
                (by simp only [List.length_drop, List.length_cons]
                    simp only [List.length_cons] at hjl
                    omega)]
          rw [processChunk_length]
          set c := (x :: xs).take k with hc
          set r := (x :: xs).drop k with hr
          have hsplit : x :: xs = c ++ r := by
            rw [hc, hr, List.take_append_drop]
          rw [hsplit, List.enum_append, List.map_append, enumFrom_map_off]
          have hck : c.length ≤ k := by
            rw [hc, List.length_take]
            exact min_le_left _ _
          congr 1
          · show ((c.enum.map (fun p => mkScraperResult p.2 (s p.1 p.2))).enum).map
                (fun p => (p.2, completed + p.1 + 1, total)) = _
            rw [enum_map_enum]
            apply List.map_congr_left
            intro p hp
            have hp1 : p.1 < c.length := by
              rw [List.mem_enum_iff_getElem?] at hp
              exact (List.getElem?_eq_some.mp hp).1
            show (mkScraperResult p.2 (s p.1 p.2), completed + p.1 + 1, total) = _
            rw [Nat.mod_eq_of_lt (lt_of_lt_of_le hp1 hck)]
          · by_cases hsmall : (x :: xs).length ≤ k
            · have hre : r = [] := by
                rw [hr]
                exact List.drop_eq_nil_of_le hsmall
              rw [hre]
              rfl
            · have hck2 : c.length = k := by
                rw [hc, List.length_take]
                simp only [List.length_cons] at hsmall ⊢
                omega
              apply List.map_congr_left
              intro p _
              rw [hck2]
              show (mkScraperResult p.2 (s (p.1 % k) p.2), completed + k + p.1 + 1, total) =
                (mkScraperResult p.2 (s ((p.1 + k) % k) p.2), completed + (p.1 + k) + 1, total)
              rw [Nat.add_mod_right]
              have harith : completed + k + p.1 + 1 = completed + (p.1 + k) + 1 := by omega
              rw [harith]

/-! Claims about the batch orchestrator. -/

/-- Claim C1: process_batch_with_callback returns exactly one outcome per
input job, and the returned contributor_number identifiers agree with the
input identifiers as sets and even as multisets (no drop, no
duplication). -/
theorem run_returns_one_outcome_per_job (k : Nat)
    (s : Nat → String → Except String IPTUData) (jobs : List String)
    (hk : 1 ≤ k) :
    (process_batch_with_callback k s jobs).1.length = jobs.length ∧
    (∀ idn : String,
      idn ∈ (process_batch_with_callback k s jobs).1.map
              (fun r => r.contributor_number) ↔ idn ∈ jobs) ∧
    (∀ idn : String,
      ((process_batch_with_callback k s jobs).1.map
        (fun r => r.contributor_number)).count idn = jobs.count idn) := by
  have hmap : (process_batch_with_callback k s jobs).1.map
      (fun r => r.contributor_number) = jobs := by
    unfold process_batch_with_callback
    rw [runChunks_fst hk, List.map_map]
    have hcomp : ((fun r : ScraperResult => r.contributor_number) ∘
        (fun p : Nat × String => mkScraperResult p.2 (s (p.1 % k) p.2))) =
          Prod.snd := by
      funext p
      rfl
    rw [hcomp, List.enum_map_snd]
  refine ⟨?_, ?_, ?_⟩
  · have hlen := congrArg List.length hmap
    simpa using hlen
  · intro idn
    rw [hmap]
  · intro idn
    rw [hmap]

theorem run_returns_one_outcome_per_job_witness :
    1 ≤ 2 ∧
    ((process_batch_with_callback 2 (fun _ _ => Except.error "x")
        ["a", "b", "c"]).1.length = (["a", "b", "c"] : List String).length ∧
     (∀ idn : String,
       idn ∈ (process_batch_with_callback 2 (fun _ _ => Except.error "x")
               ["a", "b", "c"]).1.map (fun r => r.contributor_number) ↔
         idn ∈ (["a", "b", "c"] : List String)) ∧
     (∀ idn : String,
       ((process_batch_with_callback 2 (fun _ _ => Except.error "x")
         ["a", "b", "c"]).1.map (fun r => r.contributor_number)).count idn =
         (["a", "b", "c"] : List String).count idn)) :=
  ⟨by decide,
   run_returns_one_outcome_per_job 2 (fun _ _ => Except.error "x")
     ["a", "b", "c"] (by decide)⟩

/-- Claim C5: for pool size k at least 1, the batch is processed in exactly
ceil(n/k) chunks, the i-th chunk being the i-th consecutive window of k
jobs in input order (last chunk possibly smaller, concatenation restores
the input), and in the timing model no task of chunk i+1 starts before
every task of chunk i has completed. -/
theorem chunking_schedule (k : Nat) (jobs : List String) (hk : 1 ≤ k) :
    (chunksOf k jobs).length = (jobs.length + k - 1) / k ∧
    (∀ i, i < (chunksOf k jobs).length →
      (chunksOf k jobs)[i]? = some ((jobs.drop (i * k)).take k)) ∧
    (chunksOf k jobs).flatten = jobs ∧
    (∀ (T : Timing) (c i j : Nat), i < chunkSizes k jobs c →
      taskEndAbs T k jobs c i ≤ taskStartAbs T k jobs (c + 1) j) := by
  refine ⟨chunksOf_length hk jobs, chunksOf_getElem hk jobs,
    chunksOf_flatten hk jobs, ?_⟩
  intro T c i j hi
  have hmem : T.stagger c i + T.dur c i ∈
      (List.range (chunkSizes k jobs c)).map
        (fun i2 => T.stagger c i2 + T.dur c i2) :=
    List.mem_map.mpr ⟨i, List.mem_range.mpr hi, rfl⟩
  have hspan : T.stagger c i + T.dur c i ≤ chunkSpan T (chunkSizes k jobs c) c :=
    le_foldr_max _ _ hmem
  have hbase : chunkBase T k jobs (c + 1) =
      chunkBase T k jobs c + chunkSpan T (chunkSizes k jobs c) c +
        T.interDelay c := rfl
  unfold taskEndAbs taskStartAbs
  rw [hbase]
  omega

theorem chunking_schedule_witness :
    1 ≤ 2 ∧
    ((chunksOf 2 ["a", "b", "c", "d", "e"]).length =
        ((["a", "b", "c", "d", "e"] : List String).length + 2 - 1) / 2 ∧
     (∀ i, i < (chunksOf 2 ["a", "b", "c", "d", "e"]).length →
       (chunksOf 2 ["a", "b", "c", "d", "e"])[i]? =
         some (((["a", "b", "c", "d", "e"] : List String).drop (i * 2)).take 2)) ∧
     (chunksOf 2 ["a", "b", "c", "d", "e"]).flatten = ["a", "b", "c", "d", "e"] ∧
     (∀ (T : Timing) (c i j : Nat), i < chunkSizes 2 ["a", "b", "c", "d", "e"] c →
       taskEndAbs T 2 ["a", "b", "c", "d", "e"] c i ≤
         taskStartAbs T 2 ["a", "b", "c", "d", "e"] (c + 1) j)) :=
  ⟨by decide, chunking_schedule 2 ["a", "b", "c", "d", "e"] (by decide)⟩

/-- Claim C6: every per-job scrape error is caught at the task boundary and
converted to a failed outcome with an error message; no error escapes the
batch run, and a failing job never prevents the run from producing one
outcome per job. -/
theorem per_job_errors_contained (k : Nat)
    (s : Nat → String → Except String IPTUData) (jobs : List String)
    (hk : 1 ≤ k) :
    (process_batch_with_callback k s jobs).1.length = jobs.length ∧
    (∀ (j : Nat) (idn msg : String), jobs[j]? = some idn →
      s (j % k) idn = Except.error msg →
      ∃ r : ScraperResult,
        (process_batch_with_callback k s jobs).1[j]? = some r ∧
        r.contributor_number = idn ∧ r.success = false ∧
        r.error = some msg) := by
  have hchar : (process_batch_with_callback k s jobs).1 =
      jobs.enum.map (fun p => mkScraperResult p.2 (s (p.1 % k) p.2)) := by
    unfold process_batch_with_callback
    exact runChunks_fst hk s jobs.length jobs 0
  constructor
  · rw [hchar]
    simp [List.enum_length]
  · intro j idn msg hj hs
    refine ⟨mkScraperResult idn (Except.error msg), ?_, rfl, rfl, rfl⟩
    rw [hchar, List.getElem?_map, List.getElem?_enum, hj]
    simp [hs]

theorem per_job_errors_contained_witness :
    1 ≤ 1 ∧
    ((process_batch_with_callback 1 (fun _ _ => Except.error "boom")
        ["a"]).1.length = (["a"] : List String).length ∧
     (∀ (j : Nat) (idn msg : String), (["a"] : List String)[j]? = some idn →
       (fun (_ : Nat) (_ : String) => Except.error (ε := String) (α := IPTUData) "boom") (j % 1) idn = Except.error msg →
       ∃ r : ScraperResult,
         (process_batch_with_callback 1 (fun _ _ => Except.error "boom")
           ["a"]).1[j]? = some r ∧
         r.contributor_number = idn ∧ r.success = false ∧
         r.error = some msg)) :=
  ⟨by decide,
   per_job_errors_contained 1 (fun _ _ => Except.error "boom") ["a"] (by decide)⟩

/-- Claim C7 counterexample: the callbacks of a chunk are issued in
submission (slot) order, because futures::future::join_all yields the task
outputs in input order.  With pool size 2 and jobs A and B where the slot-0
task completes at time 100 and the slot-1 task at time 50, the callback
order is [A, B] while the completion times read in callback order are
[100, 50], which is not sorted by completion time: the callback order does
not reflect real completion order. -/
theorem callback_completion_order_counterexample :
    ((process_batch_with_callback 2 cexScrape ["A", "B"]).2.map
      (fun t => t.1.contributor_number) = ["A", "B"]) ∧
    chunkCallbackEndTimes cexTiming 2 ["A", "B"] 0 = [100, 50] ∧
    ¬ List.Chain' (fun a b : Nat => a ≤ b)
        (chunkCallbackEndTimes cexTiming 2 ["A", "B"] 0) := by
  refine ⟨by decide, by decide, ?_⟩
  intro hchain
  rw [show chunkCallbackEndTimes cexTiming 2 ["A", "B"] 0 = [100, 50] from
    by decide] at hchain
  have h100 := (List.chain'_cons.mp hchain).1
  omega

/-- Claim C7 (amended): within each chunk the on_result callback is invoked
exactly once per job, in submission (slot) order — join_all delivers the
chunk results in input order — with the running completed count and the
total. -/
theorem callback_trace_submission_order (k : Nat)
    (s : Nat → String → Except String IPTUData) (jobs : List String)
    (hk : 1 ≤ k) :
    (process_batch_with_callback k s jobs).2 =
      jobs.enum.map (fun p =>
        (mkScraperResult p.2 (s (p.1 % k) p.2), p.1 + 1, jobs.length)) := by
  unfold process_batch_with_callback
  rw [runChunks_snd hk]
  apply List.map_congr_left
  intro p _
  show (mkScraperResult p.2 (s (p.1 % k) p.2), 0 + p.1 + 1, jobs.length) = _
  rw [Nat.zero_add]

theorem callback_trace_submission_order_witness :
    1 ≤ 2 ∧
    (process_batch_with_callback 2 (fun _ _ => Except.error "e")
        ["A", "B", "C"]).2 =
      (["A", "B", "C"] : List String).enum.map (fun p =>
        (mkScraperResult p.2 ((fun (_ : Nat) (_ : String) =>
          Except.error (ε := String) (α := IPTUData) "e") (p.1 % 2) p.2),
         p.1 + 1, (["A", "B", "C"] : List String).length)) :=
  ⟨by decide,
   callback_trace_submission_order 2 (fun _ _ => Except.error "e")
     ["A", "B", "C"] (by decide)⟩

/-! Claims about the session pool and the delay policy. -/

/-- Claim C8 counterexample: the configuration accepts any pool size (the
--concurrent flag is an unbounded usize), and at pool size 6 sessions 0 and
5 receive the same identity string (user_agents has 5 entries and session i
receives entry i mod 5), so the pool identities are not pairwise
distinct. -/
theorem pool_identities_counterexample : ¬ (poolIdentities 6).Nodup := by
  decide

/-- Claim C8 (amended): each session is assigned an identity round-robin
from the fixed 5-entry User-Agent list (session i receives entry i mod 5),
and for every pool size of at most 5 — the length of the list — no two
sessions share an identity string. -/
theorem pool_identities_roundrobin (n : Nat) (hn : n ≤ 5) :
    (poolIdentities n).Nodup ∧
    (∀ i, i < n → (poolIdentities n)[i]? =
      some (user_agents.getD (i % user_agents.length) "")) := by
  constructor
  · interval_cases n <;> decide
  · intro i hi
    unfold poolIdentities
    rw [List.getElem?_map, List.getElem?_range hi]
    rfl

theorem pool_identities_roundrobin_witness :
    5 ≤ 5 ∧
    ((poolIdentities 5).Nodup ∧
     (∀ i, i < 5 → (poolIdentities 5)[i]? =
       some (user_agents.getD (i % user_agents.length) ""))) :=
  ⟨by decide, pool_identities_roundrobin 5 (by decide)⟩

theorem finalDelay_bounds (lo hi : Nat) (d : Nat) (j : Int) (h1 : lo ≤ d)
    (h2 : d < hi) (h3 : -20 ≤ j) (h4 : j ≤ 20) :
    ((lo : Int) * 80) / 100 ≤ finalDelay d j ∧
      finalDelay d j ≤ (((hi : Int) - 1) * 120) / 100 := by
  have hd1 : (lo : Int) ≤ (d : Int) := by exact_mod_cast h1
  have hd2 : (d : Int) ≤ (hi : Int) - 1 := by
    have : (d : Int) < (hi : Int) := by exact_mod_cast h2
    omega
  have hd0 : (0 : Int) ≤ (d : Int) := by positivity
  have h80 : (80 : Int) ≤ 100 + j := by omega
  have h120 : (100 : Int) + j ≤ 120 := by omega
  have hl : (lo : Int) * 80 ≤ (d : Int) * (100 + j) := by
    calc (lo : Int) * 80 ≤ (d : Int) * 80 :=
          mul_le_mul_of_nonneg_right hd1 (by norm_num)
      _ ≤ (d : Int) * (100 + j) := mul_le_mul_of_nonneg_left h80 hd0
  have hu : (d : Int) * (100 + j) ≤ ((hi : Int) - 1) * 120 := by
    calc (d : Int) * (100 + j) ≤ (d : Int) * 120 :=
          mul_le_mul_of_nonneg_left h120 hd0
      _ ≤ ((hi : Int) - 1) * 120 :=
          mul_le_mul_of_nonneg_right hd2 (by norm_num)
  exact ⟨Int.ediv_le_ediv (by norm_num) hl, Int.ediv_le_ediv (by norm_num) hu⟩

/-- Claim C9: for every delay kind and every outcome of the randomness
(base sample within the half-open gen_range interval of the kind, jitter percent
between -20 and 20), the final delay lies within
[base_min * 0.8, base_max * 1.2]: Quick within [2400, 4800] ms, Normal
within [3200, 9600] ms, Slow within [6400, 21600] ms. -/
theorem delay_samples_within_jitter_bounds (p : DelayPattern) (d : Nat)
    (j : Int) (h1 : (baseRange p).1 ≤ d) (h2 : d < (baseRange p).2)
    (h3 : -20 ≤ j) (h4 : j ≤ 20) :
    (((baseRange p).1 : Int) * 8 / 10 ≤ finalDelay d j ∧
      finalDelay d j ≤ ((baseRange p).2 : Int) * 12 / 10) ∧
    (p = DelayPattern.Quick →
      2400 ≤ finalDelay d j ∧ finalDelay d j ≤ 4800) ∧
    (p = DelayPattern.Normal →
      3200 ≤ finalDelay d j ∧ finalDelay d j ≤ 9600) ∧
    (p = DelayPattern.Slow →
      6400 ≤ finalDelay d j ∧ finalDelay d j ≤ 21600) := by
  cases p with
  | Quick =>
      simp only [baseRange] at h1 h2 ⊢
      have hb := finalDelay_bounds 3000 4000 d j h1 h2 h3 h4
      norm_num at hb
      refine ⟨?_, fun _ => ?_, fun hcon => absurd hcon (by decide),
        fun hcon => absurd hcon (by decide)⟩ <;> norm_num <;> omega
  | Normal =>
      simp only [baseRange] at h1 h2 ⊢
      have hb := finalDelay_bounds 4000 8000 d j h1 h2 h3 h4
      norm_num at hb
      refine ⟨?_, fun hcon => absurd hcon (by decide), fun _ => ?_,
        fun hcon => absurd hcon (by decide)⟩ <;> norm_num <;> omega
  | Slow =>
      simp only [baseRange] at h1 h2 ⊢
      have hb := finalDelay_bounds 8000 18000 d j h1 h2 h3 h4
      norm_num at hb
      refine ⟨?_, fun hcon => absurd hcon (by decide),
        fun hcon => absurd hcon (by decide), fun _ => ?_⟩ <;> norm_num <;> omega

theorem delay_samples_within_jitter_bounds_witness :
    ((baseRange DelayPattern.Quick).1 ≤ 3000 ∧
      3000 < (baseRange DelayPattern.Quick).2 ∧
      (-20 : Int) ≤ 0 ∧ (0 : Int) ≤ 20) ∧
    ((((baseRange DelayPattern.Quick).1 : Int) * 8 / 10 ≤ finalDelay 3000 0 ∧
       finalDelay 3000 0 ≤ ((baseRange DelayPattern.Quick).2 : Int) * 12 / 10) ∧
     (DelayPattern.Quick = DelayPattern.Quick →
       2400 ≤ finalDelay 3000 0 ∧ finalDelay 3000 0 ≤ 4800) ∧
     (DelayPattern.Quick = DelayPattern.Normal →
       3200 ≤ finalDelay 3000 0 ∧ finalDelay 3000 0 ≤ 9600) ∧
     (DelayPattern.Quick = DelayPattern.Slow →
       6400 ≤ finalDelay 3000 0 ∧ finalDelay 3000 0 ≤ 21600)) :=
  ⟨⟨by decide, by decide, by decide, by decide⟩,
   delay_samples_within_jitter_bounds DelayPattern.Quick 3000 0
     (by decide) (by decide) (by decide) (by decide)⟩

/-! Claim C10: the outcome invariant. -/

theorem mem_runChunks_fst (s : Nat → String → Except String IPTUData)
    (total : Nat) :
    ∀ (chunks : List (List String)) (completed : Nat) (r : ScraperResult),
      r ∈ (runChunks s total completed chunks).1 →
      ∃ (i : Nat) (idn : String), r = mkScraperResult idn (s i idn) := by
  intro chunks
  induction chunks with
  | nil =>
      intro completed r hr
      exact absurd hr (List.not_mem_nil r)
  | cons c cs ih =>
      intro completed r hr
      have hr2 : r ∈ processChunk s c ++
          (runChunks s total (completed + (processChunk s c).length) cs).1 := hr
      rcases List.mem_append.mp hr2 with h | h
      · unfold processChunk at h
        rcases List.mem_map.mp h with ⟨p, _, hpr⟩
        exact ⟨p.1, p.2, hpr.symm⟩
      · exact ih _ r h

/-- Claim C10: every outcome produced by the orchestrator satisfies the
invariant: the success flag is true iff the error field is none, and a
failed outcome carries none in every optional data field. -/
theorem outcome_invariant (k : Nat) (s : Nat → String → Except String IPTUData)
    (jobs : List String) (r : ScraperResult)
    (hr : r ∈ (process_batch_with_callback k s jobs).1) :
    (r.success = true ↔ r.error = none) ∧
    (r.success = false →
      r.numero_cadastro = none ∧ r.nome_proprietario = none ∧
      r.nome_compromissario = none ∧ r.endereco = none ∧ r.numero = none ∧
      r.complemento = none ∧ r.bairro = none ∧ r.cep = none) := by
  obtain ⟨i, idn, rfl⟩ :=
    mem_runChunks_fst s jobs.length (chunksOf k jobs) 0 r hr
  cases hres : s i idn with
  | ok d => simp [mkScraperResult, exceptToOption, exceptError, isOkB, hres]
  | error e => simp [mkScraperResult, exceptToOption, exceptError, isOkB, hres]

theorem outcome_invariant_witness :
    (mkScraperResult "a" (Except.error "x") ∈
      (process_batch_with_callback 1 (fun _ _ => Except.error "x") ["a"]).1) ∧
    (((mkScraperResult "a" (Except.error "x")).success = true ↔
        (mkScraperResult "a" (Except.error "x")).error = none) ∧
     ((mkScraperResult "a" (Except.error "x")).success = false →
       (mkScraperResult "a" (Except.error "x")).numero_cadastro = none ∧
       (mkScraperResult "a" (Except.error "x")).nome_proprietario = none ∧
       (mkScraperResult "a" (Except.error "x")).nome_compromissario = none ∧
       (mkScraperResult "a" (Except.error "x")).endereco = none ∧
       (mkScraperResult "a" (Except.error "x")).numero = none ∧
       (mkScraperResult "a" (Except.error "x")).complemento = none ∧
       (mkScraperResult "a" (Except.error "x")).bairro = none ∧
       (mkScraperResult "a" (Except.error "x")).cep = none)) :=
  ⟨by decide,
   outcome_invariant 1 (fun _ _ => Except.error "x") ["a"]
     (mkScraperResult "a" (Except.error "x")) (by decide)⟩

theorem ensure_on_search_page_bounded_witness :
    (∀ a, (fun (_ : Nat) => false) a = false) ∧
    ((ensure_on_search_page (fun _ => false) (fun _ => false) (fun _ => false)).2 ≤ 4 ∧
      ensure_on_search_page (fun _ => false) (fun _ => false) (fun _ => false) =
        (Except.error NavError.targetPageUnreachable, 4)) :=
  ⟨fun _ => rfl,
   (ensure_on_search_page_bounded (fun _ => false) (fun _ => false) (fun _ => false)).1,
   (ensure_on_search_page_bounded (fun _ => false) (fun _ => false) (fun _ => false)).2
     (fun _ => rfl) (fun _ => rfl)⟩

end Ibvi
